/- Verification of the music_kraken metadata core against its specification.
   Shallow embedding of:
   - src/music_kraken/database/objects/metadata.py  (Mapping, ID3Timestamp, Metadata)
   - src/music_kraken/database/objects/song.py      (Song.set_album, Song.get_metadata)
   - src/music_kraken/pages/support_classes/default_target.py (DefaultTarget)
-/
import Mathlib

set_option maxHeartbeats 1000000

namespace MusicKraken

/-! ## ID3Timestamp (metadata.py lines 103-247)

Python's `ID3Timestamp.__init__` takes six optional integer components and
records a `has_X` flag for each; absent components are defaulted to 1 inside
the backing `datetime` object.  We model the object as six `Option Nat`
fields; the `has_X` accessors and the default-1 reads mirror the source. -/

structure ID3Timestamp where
  year : Option Nat
  month : Option Nat
  day : Option Nat
  hour : Option Nat
  minute : Option Nat
  second : Option Nat
deriving DecidableEq, Repr

def ID3Timestamp.has_year (t : ID3Timestamp) : Bool := t.year.isSome

def ID3Timestamp.has_month (t : ID3Timestamp) : Bool := t.month.isSome

def ID3Timestamp.has_day (t : ID3Timestamp) : Bool := t.day.isSome

def ID3Timestamp.has_hour (t : ID3Timestamp) : Bool := t.hour.isSome

def ID3Timestamp.has_minute (t : ID3Timestamp) : Bool := t.minute.isSome

def ID3Timestamp.has_second (t : ID3Timestamp) : Bool := t.second.isSome

/-- Two-digit zero padding, as strftime prints %m %d %H %M %S. -/
def pad2 (n : Nat) : String :=
  if n < 10 then "0" ++ toString n else toString n

/-- The %Y component of the backing datetime (absent components default to 1,
    as in `ID3Timestamp.__init__`). -/
def ID3Timestamp.yearStr (t : ID3Timestamp) : String := toString (t.year.getD 1)

def ID3Timestamp.monthStr (t : ID3Timestamp) : String := pad2 (t.month.getD 1)

def ID3Timestamp.dayStr (t : ID3Timestamp) : String := pad2 (t.day.getD 1)

def ID3Timestamp.hourStr (t : ID3Timestamp) : String := pad2 (t.hour.getD 1)

def ID3Timestamp.minuteStr (t : ID3Timestamp) : String := pad2 (t.minute.getD 1)

def ID3Timestamp.secondStr (t : ID3Timestamp) : String := pad2 (t.second.getD 1)

/-- `ID3Timestamp.get_timestamp` (metadata.py lines 149-183): a cascade of
    conjunction tests from full precision down to year-only, else `""`. -/
def ID3Timestamp.get_timestamp (t : ID3Timestamp) : String :=
  if t.has_year && t.has_month && t.has_day && t.has_hour && t.has_minute && t.has_second then
    t.yearStr ++ "-" ++ t.monthStr ++ "-" ++ t.dayStr ++ "T" ++ t.hourStr ++ ":" ++ t.minuteStr ++ ":" ++ t.secondStr
  else if t.has_year && t.has_month && t.has_day && t.has_hour && t.has_minute then
    t.yearStr ++ "-" ++ t.monthStr ++ "-" ++ t.dayStr ++ "T" ++ t.hourStr ++ ":" ++ t.minuteStr
  else if t.has_year && t.has_month && t.has_day && t.has_hour then
    t.yearStr ++ "-" ++ t.monthStr ++ "-" ++ t.dayStr ++ "T" ++ t.hourStr
  else if t.has_year && t.has_month && t.has_day then
    t.yearStr ++ "-" ++ t.monthStr ++ "-" ++ t.dayStr
  else if t.has_year && t.has_month then
    t.yearStr ++ "-" ++ t.monthStr
  else if t.has_year then
    t.yearStr
  else
    ""

/-- The serialization rule as the spec words it (spec §3, §4.1): the precision
    is the longest prefix of present components in the order year, month, day,
    hour, minute, second; empty string when no year is present.  Written from
    the spec's words, to be compared with `ID3Timestamp.get_timestamp`. -/
def ID3Timestamp.spec_serialize (t : ID3Timestamp) : String :=
  if !t.has_year then ""
  else if !t.has_month then t.yearStr
  else if !t.has_day then t.yearStr ++ "-" ++ t.monthStr
  else if !t.has_hour then t.yearStr ++ "-" ++ t.monthStr ++ "-" ++ t.dayStr
  else if !t.has_minute then t.yearStr ++ "-" ++ t.monthStr ++ "-" ++ t.dayStr ++ "T" ++ t.hourStr
  else if !t.has_second then
    t.yearStr ++ "-" ++ t.monthStr ++ "-" ++ t.dayStr ++ "T" ++ t.hourStr ++ ":" ++ t.minuteStr
  else
    t.yearStr ++ "-" ++ t.monthStr ++ "-" ++ t.dayStr ++ "T" ++ t.hourStr ++ ":" ++ t.minuteStr ++ ":" ++ t.secondStr

/-! ## ID3Timestamp.strptime (metadata.py lines 185-223)

`strptime` first parses the input with `datetime.datetime.strptime`; we model
the successfully parsed result as an explicit record of the six components.
The presence flags are then inferred by raw substring tests on the format
string, exactly as in the source. -/

structure DateObj where
  year : Nat
  month : Nat
  day : Nat
  hour : Nat
  minute : Nat
  second : Nat
deriving DecidableEq, Repr

/-- Substring occurrence on character lists. -/
def subOccurs (pat : List Char) : List Char → Bool
  | [] => pat.isEmpty
  | c :: tail => pat.isPrefixOf (c :: tail) || subOccurs pat tail

/-- Python's `pat in s` substring test. -/
def strContains (s pat : String) : Bool := subOccurs pat.toList s.toList

/-- `ID3Timestamp.strptime` (metadata.py lines 185-223): each component is
    present exactly when one of its directives occurs (as a raw substring) in
    the format string, taking its value from the parsed date object. -/
def ID3Timestamp.strptime (date_obj : DateObj) (format : String) : ID3Timestamp :=
  { day := if strContains format "%d" then some date_obj.day else none
    month := if strContains format "%b" || strContains format "%B" || strContains format "%m" then
        some date_obj.month
      else none
    year := if strContains format "%y" || strContains format "%Y" then some date_obj.year else none
    hour := if strContains format "%H" || strContains format "%I" then some date_obj.hour else none
    minute := if strContains format "%M" then some date_obj.minute else none
    second := if strContains format "%S" then some date_obj.second else none }

/-! ## Metadata container (metadata.py lines 250-346)

`Metadata.id3_attributes` is an insertion-ordered Python dict from a string
key to a list of values.  Values in those lists are Python objects: strings,
`ID3Timestamp`s, `None`, integers.  We model the dict as an association list
(reachable states keep keys unique; `storeMeta` updates the first matching
entry in place, as dict assignment keeps a key's position). -/

inductive MValue where
  | str (s : String)
  | ts (t : ID3Timestamp)
  | noneV
  | intV (n : Int)
deriving DecidableEq, Repr

/-- Python exceptions raised by the container code. -/
inductive PyErr where
  | valueError
  | typeError
  | indexError
deriving DecidableEq, Repr

/-- The Python value passed as `value` to `Metadata.__setitem__`: a list, or
    a non-list that has a length (string, tuple), or a length-free object. -/
inductive PyVal where
  | list (l : List MValue)
  | strv (s : String)
  | tup (l : List MValue)
  | intv (n : Int)
deriving DecidableEq, Repr

/-- `len(value)`: lists, strings and tuples have a length; `len` on an int
    raises a TypeError. -/
def pyLen : PyVal → Except PyErr Nat
  | .list l => .ok l.length
  | .strv s => .ok s.length
  | .tup l => .ok l.length
  | .intv _ => .error .typeError

abbrev Metadata := List (String × List MValue)

def emptyMeta : Metadata := []

/-- Dict read: first entry with the key. -/
def lookupMeta : Metadata → String → Option (List MValue)
  | [], _ => none
  | (k, l) :: rest, key => if k = key then some l else lookupMeta rest key

/-- Dict write: replace the first entry with the key (keeping its position),
    else append a new entry. -/
def storeMeta : Metadata → String → List MValue → Metadata
  | [], key, val => [(key, val)]
  | (k, l) :: rest, key, val =>
    if k = key then (key, val) :: rest else (k, l) :: storeMeta rest key val

/-- Dict pop. -/
def removeMeta : Metadata → String → Metadata
  | [], _ => []
  | (k, l) :: rest, key => if k = key then rest else (k, l) :: removeMeta rest key

/-- `Metadata.__setitem__` (metadata.py lines 270-287).  The length test comes
    first (an empty value returns silently); only then is a non-list rejected
    with a ValueError.  The override branch filters `None` entries and stores
    only a non-empty remainder; the additive branch stores or extends the
    value unfiltered. -/
def setitem (m : Metadata) (key : String) (value : PyVal) (override_existing : Bool) :
    Except PyErr Metadata :=
  match pyLen value with
  | .error e => .error e
  | .ok n =>
    if n = 0 then .ok m
    else
      match value with
      | .list l =>
        if override_existing then
          let new_val := l.filter (fun elem => elem ≠ .noneV)
          if 0 < new_val.length then .ok (storeMeta m key new_val)
          else .ok m
        else
          match lookupMeta m key with
          | none => .ok (storeMeta m key l)
          | some old => .ok (storeMeta m key (old ++ l))
      | _ => .error .valueError

/-- The container state after a `__setitem__` call: the new state on success,
    the unchanged state when the call raised (the raise happens before any
    mutation). -/
def setitemState (m : Metadata) (key : String) (value : PyVal) (override_existing : Bool) :
    Metadata :=
  match setitem m key value override_existing with
  | .ok m2 => m2
  | .error _ => m

/-- `Metadata.add_metadata_dict` (metadata.py lines 294-296): one
    `__setitem__` per dict entry, in dict order. -/
def add_metadata_dict (m : Metadata) (metadata_dict : List (String × PyVal))
    (override_existing : Bool) : Metadata :=
  metadata_dict.foldl (fun acc kv => setitemState acc kv.1 kv.2 override_existing) m

/-- `Metadata.add_many_metadata_dict` (metadata.py lines 298-300). -/
def add_many_metadata_dict (m : Metadata) (id3_metadata_list : List (List (String × PyVal)))
    (override_existing : Bool) : Metadata :=
  id3_metadata_list.foldl (fun acc d => add_metadata_dict acc d override_existing) m

/-- `Metadata.delete_item` (metadata.py lines 302-304). -/
def delete_item (m : Metadata) (key : String) : Metadata := removeMeta m key

/-- One mutating container operation, for stating reachability invariants. -/
inductive MetaOp where
  | set (key : String) (value : PyVal) (override_existing : Bool)
  | addDict (d : List (String × PyVal)) (override_existing : Bool)
  | addMany (ds : List (List (String × PyVal))) (override_existing : Bool)
  | del (key : String)

def applyOp (m : Metadata) : MetaOp → Metadata
  | .set key value o => setitemState m key value o
  | .addDict d o => add_metadata_dict m d o
  | .addMany ds o => add_many_metadata_dict m ds o
  | .del key => delete_item m key

def runOps (ops : List MetaOp) : Metadata := ops.foldl applyOp emptyMeta

/-! ## Metadata.get_id3_value (metadata.py lines 306-330) -/

/-- ASCII upper-casing, as Python `str.upper` acts on these ASCII keys
    (written over the character list so that it evaluates by reduction). -/
def strUpper (s : String) : String := String.mk (s.toList.map Char.toUpper)

/-- The conversion loop body of `get_id3_value`: strings are kept, an
    `ID3Timestamp` is replaced by its serialized timestamp, anything else is
    left untouched. -/
def convertElem : MValue → MValue
  | .str s => .str s
  | .ts t => .str t.get_timestamp
  | v => v

/-- `"\x00".join(list_data)`: succeeds only when every element is a string,
    else Python raises a TypeError. -/
def joinStrs (l : List MValue) : Except PyErr String :=
  match allStrs l with
  | some ss => .ok (String.intercalate "\x00" ss)
  | none => .error .typeError
where
  allStrs : List MValue → Option (List String)
    | [] => some []
    | .str s :: rest => (allStrs rest).map (fun ss => s :: ss)
    | _ => none

/-- Result of `Metadata.get_id3_value`: Python `None` for an absent key, a
    joined string for text keys, the first stored element otherwise, or an
    uncaught exception. -/
inductive GetRes where
  | pyNone
  | strRes (s : String)
  | valRes (v : MValue)
  | err (e : PyErr)
deriving DecidableEq, Repr

/-- The returned value of `get_id3_value` (metadata.py lines 322-330),
    computed from the already-converted stored list: text keys (first
    character upper-casing to `T`, key not upper-casing to `TXXX`) return the
    null-byte join of the list, all other keys return the first element
    (`key[0]` on an empty key, and `list_data[0]` on an empty list, raise an
    IndexError). -/
def get_id3_res (key : String) (converted : List MValue) : GetRes :=
  match key.toList with
  | [] => .err .indexError
  | c :: _ =>
    if c.toUpper = 'T' ∧ strUpper key ≠ "TXXX" then
      match joinStrs converted with
      | .ok s => .strRes s
      | .error e => .err e
    else
      match converted with
      | [] => .err .indexError
      | v :: _ => .valRes v

/-- `Metadata.get_id3_value` (metadata.py lines 306-330).  An absent key
    returns `None`.  Otherwise the stored list is mutated in place,
    converting each `ID3Timestamp` element to its timestamp string (the
    conversion loop assigns `list_data[i]` on the stored list itself), and
    the result is computed from the converted list per `get_id3_res`. -/
def get_id3_value (m : Metadata) (key : String) : Metadata × GetRes :=
  match lookupMeta m key with
  | none => (m, .pyNone)
  | some list_data =>
    let converted := list_data.map convertElem
    (storeMeta m key converted, get_id3_res key converted)

/-! ## Mapping (metadata.py lines 13-100)

The tag-key enumeration.  Python `Enum` members with a duplicate value are
aliases of the earlier member; since only `.value` is used here, aliases are
listed as constructors of their own. -/

inductive Mapping where
  | TITLE | ISRC | LENGTH | DATE | TRACKNUMBER | TOTALTRACKS
  | TITLESORTORDER | ENCODING_SETTINGS | SUBTITLE | SET_SUBTITLE
  | RELEASE_DATE | RECORDING_DATES | PUBLISHER_URL | PUBLISHER
  | RATING | DISCNUMBER | MOVEMENT_COUNT | TOTALDISCS
  | ORIGINAL_RELEASE_DATE | ORIGINAL_ARTIST | ORIGINAL_ALBUM
  | MEDIA_TYPE | LYRICIST | WRITER | ARTIST | LANGUAGE
  | ITUNESCOMPILATION | REMIXED_BY | RADIO_STATION_OWNER | RADIO_STATION
  | INITIAL_KEY | OWNER | ENCODED_BY | COPYRIGHT | GENRE | GROUPING
  | CONDUCTOR | COMPOSERSORTORDER | COMPOSER | BPM | ALBUM_ARTIST | BAND
  | ARTISTSORTORDER | ALBUM | ALBUMSORTORDER | ALBUMARTISTSORTORDER
  | TAGGING_TIME | SOURCE_WEBPAGE_URL | FILE_WEBPAGE_URL
  | INTERNET_RADIO_WEBPAGE_URL | ARTIST_WEBPAGE_URL | COPYRIGHT_URL
  | COMMERCIAL_INFORMATION_URL | PAYMEMT_URL | MOVEMENT_INDEX
  | MOVEMENT_NAME | UNSYNCED_LYRICS | COMMENT
deriving DecidableEq, Repr

/-- The 4-character identifier bound to each enumeration member. -/
def Mapping.value : Mapping → String
  | .TITLE => "TIT2"
  | .ISRC => "TSRC"
  | .LENGTH => "TLEN"
  | .DATE => "TYER"
  | .TRACKNUMBER => "TRCK"
  | .TOTALTRACKS => "TRCK"
  | .TITLESORTORDER => "TSOT"
  | .ENCODING_SETTINGS => "TSSE"
  | .SUBTITLE => "TIT3"
  | .SET_SUBTITLE => "TSST"
  | .RELEASE_DATE => "TDRL"
  | .RECORDING_DATES => "TXXX"
  | .PUBLISHER_URL => "WPUB"
  | .PUBLISHER => "TPUB"
  | .RATING => "POPM"
  | .DISCNUMBER => "TPOS"
  | .MOVEMENT_COUNT => "MVIN"
  | .TOTALDISCS => "TPOS"
  | .ORIGINAL_RELEASE_DATE => "TDOR"
  | .ORIGINAL_ARTIST => "TOPE"
  | .ORIGINAL_ALBUM => "TOAL"
  | .MEDIA_TYPE => "TMED"
  | .LYRICIST => "TEXT"
  | .WRITER => "TEXT"
  | .ARTIST => "TPE1"
  | .LANGUAGE => "TLAN"
  | .ITUNESCOMPILATION => "TCMP"
  | .REMIXED_BY => "TPE4"
  | .RADIO_STATION_OWNER => "TRSO"
  | .RADIO_STATION => "TRSN"
  | .INITIAL_KEY => "TKEY"
  | .OWNER => "TOWN"
  | .ENCODED_BY => "TENC"
  | .COPYRIGHT => "TCOP"
  | .GENRE => "TCON"
  | .GROUPING => "TIT1"
  | .CONDUCTOR => "TPE3"
  | .COMPOSERSORTORDER => "TSOC"
  | .COMPOSER => "TCOM"
  | .BPM => "TBPM"
  | .ALBUM_ARTIST => "TPE2"
  | .BAND => "TPE2"
  | .ARTISTSORTORDER => "TSOP"
  | .ALBUM => "TALB"
  | .ALBUMSORTORDER => "TSOA"
  | .ALBUMARTISTSORTORDER => "TSO2"
  | .TAGGING_TIME => "TDTG"
  | .SOURCE_WEBPAGE_URL => "WOAS"
  | .FILE_WEBPAGE_URL => "WOAF"
  | .INTERNET_RADIO_WEBPAGE_URL => "WORS"
  | .ARTIST_WEBPAGE_URL => "WOAR"
  | .COPYRIGHT_URL => "WCOP"
  | .COMMERCIAL_INFORMATION_URL => "WCOM"
  | .PAYMEMT_URL => "WPAY"
  | .MOVEMENT_INDEX => "MVIN"
  | .MOVEMENT_NAME => "MVNM"
  | .UNSYNCED_LYRICS => "USLT"
  | .COMMENT => "COMM"

/-- A constructed mutagen frame: `id3.Frames[key](encoding=3, text=value)` or
    `id3.Frames[key](encoding=3, url=value)`. -/
inductive Frame where
  | text (key : String) (value : GetRes)
  | url (key : String) (value : GetRes)
deriving DecidableEq, Repr

/-- The first character of a key string, `key[0]` (total on the 4-character
    identifiers used here). -/
def firstChar (s : String) : Char :=
  match s.toList with
  | [] => ' '
  | c :: _ => c

/-- `Mapping.get_mutagen_instance` (metadata.py lines 91-100): dispatch on
    the first character of the bound identifier.  The source has no branch
    for other prefixes, so the function falls through and returns Python
    `None`, modelled as `Option.none`. -/
def Mapping.get_mutagen_instance (attr : Mapping) (value : GetRes) : Option Frame :=
  let key := attr.value
  if firstChar key = 'T' then
    some (.text key value)
  else if firstChar key = 'W' then
    some (.url key value)
  else
    none

/-- `Metadata.get_mutagen_object` (metadata.py lines 332-333), for a mapping
    member bound to the given key. -/
def get_mutagen_object (m : Metadata) (attr : Mapping) : Option Frame :=
  Mapping.get_mutagen_instance attr (get_id3_value m attr.value).2

/-! ## Song ↔ Album linking (song.py lines 218-226, 240)

`Song.set_album` mutates the song (`self._album = album`) and, when the song
is not yet in the album's tracklist, appends `copy.copy(self)` (a shallow
copy, with `dynamic` then set to True) to the tracklist.  The tracklist is a
`Collection(map_attributes=["title"], element_type=Song)`; `collection.py` is
not part of src/, so its membership test is modelled from the spec (§4.4):
membership is decided by the mapping attribute, here the title. -/

structure SongEnt where
  id_ : Nat
  title : Option String
  dynamic : Bool
  album_ref : Option Nat
deriving DecidableEq, Repr

structure AlbumEnt where
  id_ : Nat
  tracklist : List SongEnt
deriving DecidableEq, Repr

/-- Modelled from the spec: `Collection` membership (`collection.py` absent
    from src/) tests the mapping attribute `title` (spec §4.4: membership test
    by mapping attribute). -/
def tracklist_contains (a : AlbumEnt) (s : SongEnt) : Bool :=
  a.tracklist.any (fun e => e.title = s.title)

/-- `Song.set_album` (song.py lines 218-226): a `None` album is ignored;
    otherwise the back-reference is recorded and, when no tracklist entry
    matches by title, a shallow copy with `dynamic = True` is appended. -/
def set_album (s : SongEnt) (album : Option AlbumEnt) : SongEnt × Option AlbumEnt :=
  match album with
  | none => (s, none)
  | some a =>
    let s2 : SongEnt := { s with album_ref := some a.id_ }
    if tracklist_contains a s2 then
      (s2, some a)
    else
      let flat_copy : SongEnt := { s2 with dynamic := true }
      (s2, some { a with tracklist := a.tracklist ++ [flat_copy] })

/-! ## Song.get_metadata (song.py lines 201-216)

The song's own scalar fields seed a fresh container (override semantics, via
`Metadata.__init__` → `add_metadata_dict` with its default
`override_existing=True`), then the per-source containers, the linked album's
container, the main artists', the featured artists' and the lyrics'
containers are merged in, in that order.  `merge`/`merge_many` live on
`MetadataAttribute.Metadata` in `parents.py`, which is absent from src/; they
are modelled from the spec (§4.2): merge appends all of another container's
entries with additive policy.  The collaborator containers themselves are
abstract inputs here. -/

/-- A Python `str`-or-`None` field wrapped as a metadata value. -/
def optStr : Option String → MValue
  | some s => .str s
  | none => .noneV

/-- A Python `int`-or-`None` field wrapped as a metadata value. -/
def optInt : Option Int → MValue
  | some n => .intV n
  | none => .noneV

structure SongMeta where
  title : Option String
  isrc : Option String
  length : Option Int
  genre : Option String
  tracksort_str : Option String
  sourceMeta : List Metadata
  albumMeta : Option Metadata
  mainArtistMeta : List Metadata
  featureArtistMeta : List Metadata
  lyricsMeta : List Metadata

/-- Modelled from the spec: `Metadata.merge` (§4.2, `parents.py` absent from
    src/) appends all of another container's entries with additive policy,
    i.e. one additive `__setitem__` per entry. -/
def mergeMeta (m other : Metadata) : Metadata :=
  other.foldl (fun acc kv => setitemState acc kv.1 (.list kv.2) false) m

/-- Modelled from the spec: `Metadata.merge_many` merges a list of containers
    in order. -/
def merge_many (m : Metadata) (others : List Metadata) : Metadata :=
  others.foldl mergeMeta m

/-- The seed container of `Song.get_metadata` (song.py lines 202-208): the
    dict literal of the five own fields, inserted in order with override
    semantics. -/
def song_seed (s : SongMeta) : Metadata :=
  add_metadata_dict emptyMeta
    [ ("TIT2", .list [optStr s.title])
    , ("TSRC", .list [optStr s.isrc])
    , ("TLEN", .list [optInt s.length])
    , ("TCON", .list [optStr s.genre])
    , ("TRCK", .list [optStr s.tracksort_str]) ]
    true

/-- `Song.get_metadata` (song.py lines 201-216): seed, then merge the source
    containers, the album's (when linked), the main artists', the featured
    artists' and the lyrics' containers, in that order. -/
def song_get_metadata (s : SongMeta) : Metadata :=
  let m0 := song_seed s
  let m1 := merge_many m0 s.sourceMeta
  let m2 := match s.albumMeta with
    | none => m1
    | some am => mergeMeta m1 am
  let m3 := merge_many m2 s.mainArtistMeta
  let m4 := merge_many m3 s.featureArtistMeta
  merge_many m4 s.lyricsMeta

/-! ## DefaultTarget (default_target.py)

A dataclass of six named fields.  Its `__setattr__` writes a named field only
while the field still holds its configured default, passing the value through
`fit_to_file_system`; other writes to named fields are ignored.
`DEFAULT_VALUES` and `fit_to_file_system` live in `utils/`, absent from src/:
they are modelled from the spec (§4.6) as an abstract per-field default table
`dv` and an abstract sanitizer `fit`. -/

inductive TField where
  | genre | label | artist | album | album_type | song
deriving DecidableEq, Repr

/-- `DefaultTarget.__setattr__` (default_target.py lines 23-29) on a named
    field: write `fit v` only while the field still equals its default. -/
def dt_setattr (fit : String → String) (dv : TField → String)
    (state : TField → String) (f : TField) (v : String) : TField → String :=
  if state f = dv f then
    fun g => if g = f then fit v else state g
  else
    state

/-- The dataclass-generated `__init__` assigns each field its default through
    `__setattr__`, so the initial stored value of field `f` is `fit (dv f)`. -/
def dt_init (fit : String → String) (dv : TField → String) : TField → String :=
  fun f => fit (dv f)

/-- A sequence of named-field assignments, as performed by the
    `song_object` → `album_object` → `artist_object` → `label_object`
    resolution walk. -/
def dt_run (fit : String → String) (dv : TField → String)
    (state : TField → String) (ws : List (TField × String)) : TField → String :=
  ws.foldl (fun st w => dt_setattr fit dv st w.1 w.2) state

/-! ## Theorems -/

/-- C5: `ID3Timestamp.get_timestamp` returns the truncated ISO-8601 string
    determined by the longest prefix of present components in the order
    year, month, day, hour, minute, second; a present day with an absent
    month serializes as year-only, and the result is the empty string when
    no year is present, regardless of which later components are present. -/
theorem get_timestamp_is_longest_prefix (t : ID3Timestamp) :
    t.get_timestamp = t.spec_serialize := by
  unfold ID3Timestamp.get_timestamp ID3Timestamp.spec_serialize
  cases hy : t.has_year <;> cases hm : t.has_month <;> cases hd : t.has_day <;>
    cases hh : t.has_hour <;> cases hmi : t.has_minute <;> cases hs : t.has_second <;>
    simp [hy, hm, hd, hh, hmi, hs]

/-- C6: `ID3Timestamp.strptime` marks exactly those components present whose
    directives occur in the format string (day from %d; month from %b, %B or
    %m; year from %y or %Y; hour from %H or %I; minute from %M; second from
    %S), and serializing the result produces exactly the components implied
    by the format, truncated by the longest-prefix rule. -/
theorem strptime_components_match_format (d : DateObj) (format : String) :
    ((ID3Timestamp.strptime d format).has_year
        = (strContains format "%y" || strContains format "%Y"))
  ∧ ((ID3Timestamp.strptime d format).has_month
        = (strContains format "%b" || strContains format "%B" || strContains format "%m"))
  ∧ ((ID3Timestamp.strptime d format).has_day = strContains format "%d")
  ∧ ((ID3Timestamp.strptime d format).has_hour
        = (strContains format "%H" || strContains format "%I"))
  ∧ ((ID3Timestamp.strptime d format).has_minute = strContains format "%M")
  ∧ ((ID3Timestamp.strptime d format).has_second = strContains format "%S")
  ∧ (ID3Timestamp.strptime d format).get_timestamp =
      (if strContains format "%y" || strContains format "%Y" then
        (if strContains format "%b" || strContains format "%B" || strContains format "%m" then
          (if strContains format "%d" then
            (if strContains format "%H" || strContains format "%I" then
              (if strContains format "%M" then
                (if strContains format "%S" then
                  toString d.year ++ "-" ++ pad2 d.month ++ "-" ++ pad2 d.day ++ "T"
                    ++ pad2 d.hour ++ ":" ++ pad2 d.minute ++ ":" ++ pad2 d.second
                else
                  toString d.year ++ "-" ++ pad2 d.month ++ "-" ++ pad2 d.day ++ "T"
                    ++ pad2 d.hour ++ ":" ++ pad2 d.minute)
              else
                toString d.year ++ "-" ++ pad2 d.month ++ "-" ++ pad2 d.day ++ "T" ++ pad2 d.hour)
            else
              toString d.year ++ "-" ++ pad2 d.month ++ "-" ++ pad2 d.day)
          else
            toString d.year ++ "-" ++ pad2 d.month)
        else
          toString d.year)
      else "") := by
  cases hy : (strContains format "%y" || strContains format "%Y") <;>
    cases hm : (strContains format "%b" || strContains format "%B" || strContains format "%m") <;>
    cases hd : strContains format "%d" <;>
    cases hh : (strContains format "%H" || strContains format "%I") <;>
    cases hmi : strContains format "%M" <;>
    cases hs : strContains format "%S" <;>
    simp [ID3Timestamp.strptime, ID3Timestamp.get_timestamp, ID3Timestamp.has_year,
      ID3Timestamp.has_month, ID3Timestamp.has_day, ID3Timestamp.has_hour,
      ID3Timestamp.has_minute, ID3Timestamp.has_second, ID3Timestamp.yearStr,
      ID3Timestamp.monthStr, ID3Timestamp.dayStr, ID3Timestamp.hourStr,
      ID3Timestamp.minuteStr, ID3Timestamp.secondStr, hy, hm, hd, hh, hmi, hs]

/-! ### Container helper lemmas -/

theorem lookupMeta_storeMeta (m : Metadata) (k k2 : String) (v : List MValue) :
    lookupMeta (storeMeta m k v) k2 = if k2 = k then some v else lookupMeta m k2 := by
  induction m with
  | nil =>
    by_cases h : k = k2
    · subst h
      simp [storeMeta, lookupMeta]
    · simp only [storeMeta, lookupMeta, if_neg h, if_neg (fun hh : k2 = k => h hh.symm)]
  | cons p rest ih =>
    obtain ⟨a, b⟩ := p
    by_cases hak : a = k
    · subst hak
      by_cases h : a = k2
      · subst h
        simp [storeMeta, lookupMeta]
      · simp only [storeMeta, if_pos rfl, lookupMeta, if_neg h,
          if_neg (fun hh : k2 = a => h hh.symm)]
    · by_cases h : a = k2
      · subst h
        simp only [storeMeta, if_neg hak, lookupMeta, if_pos rfl,
          if_neg (fun hh : a = k => hak hh)]
        simp
      · simp only [storeMeta, if_neg hak, lookupMeta, if_neg h, ih]

theorem mem_storeMeta (m : Metadata) (k : String) (v : List MValue)
    (p : String × List MValue) (hp : p ∈ storeMeta m k v) : p ∈ m ∨ p = (k, v) := by
  induction m with
  | nil =>
    simp [storeMeta] at hp
    exact .inr hp
  | cons q rest ih =>
    obtain ⟨a, b⟩ := q
    by_cases hak : a = k
    · subst hak
      simp [storeMeta] at hp
      rcases hp with h | h
      · exact .inr (by simp [h])
      · exact .inl (List.mem_cons_of_mem _ h)
    · simp [storeMeta, hak] at hp
      rcases hp with h | h
      · exact .inl (by simp [h])
      · rcases ih h with h2 | h2
        · exact .inl (List.mem_cons_of_mem _ h2)
        · exact .inr h2

theorem mem_removeMeta (m : Metadata) (k : String)
    (p : String × List MValue) (hp : p ∈ removeMeta m k) : p ∈ m := by
  induction m with
  | nil => simp [removeMeta] at hp
  | cons q rest ih =>
    obtain ⟨a, b⟩ := q
    by_cases hak : a = k
    · subst hak
      simp [removeMeta] at hp
      exact List.mem_cons_of_mem _ hp
    · simp only [removeMeta, if_neg hak] at hp
      rcases List.mem_cons.mp hp with h | h
      · exact h ▸ List.mem_cons_self _ _
      · exact List.mem_cons_of_mem _ (ih h)

theorem lookupMeta_mem (m : Metadata) (k : String) (l : List MValue)
    (h : lookupMeta m k = some l) : (k, l) ∈ m := by
  induction m with
  | nil => simp [lookupMeta] at h
  | cons q rest ih =>
    obtain ⟨a, b⟩ := q
    by_cases hak : a = k
    · subst hak
      simp [lookupMeta] at h
      simp [h]
    · simp [lookupMeta, hak] at h
      exact List.mem_cons_of_mem _ (ih h)

/-- C2 counterexample: requesting a frame for the POPM-bound key RATING
    returns Python None — no frame and no error — refuting the claim that
    such a request fails with an UnsupportedTagKind error (the source has no
    raise path at all in `get_mutagen_instance`). -/
theorem get_mutagen_instance_popm_returns_none :
    Mapping.get_mutagen_instance Mapping.RATING (GetRes.strRes "255") = none := by
  decide

/-- C2 (amended): for every tag key whose bound identifier starts with a
    character other than T and other than W, and every value, frame
    construction returns no frame and raises nothing: the source falls
    through both branches and returns Python None. -/
theorem get_mutagen_instance_other_prefix (attr : Mapping) (v : GetRes)
    (hT : firstChar attr.value ≠ 'T') (hW : firstChar attr.value ≠ 'W') :
    Mapping.get_mutagen_instance attr v = none := by
  unfold Mapping.get_mutagen_instance
  simp [hT, hW]

theorem get_mutagen_instance_other_prefix_witness :
    firstChar (Mapping.value Mapping.UNSYNCED_LYRICS) ≠ 'T'
  ∧ firstChar (Mapping.value Mapping.UNSYNCED_LYRICS) ≠ 'W'
  ∧ Mapping.get_mutagen_instance Mapping.UNSYNCED_LYRICS (GetRes.strRes "la la la") = none :=
  ⟨by decide, by decide,
    get_mutagen_instance_other_prefix Mapping.UNSYNCED_LYRICS (GetRes.strRes "la la la")
      (by decide) (by decide)⟩

/-- C9 counterexample: `__setitem__` with the empty string — a non-list
    value — returns successfully without raising any error, because the
    `len(value) == 0` early return precedes the list type check; this refutes
    the claim that every non-list value, including empty ones, fails with an
    InvalidValueShape error. -/
theorem setitem_empty_string_raises_nothing :
    setitem emptyMeta "TIT2" (PyVal.strv "") true = Except.ok emptyMeta := by
  rfl

/-- C9 (amended): a non-list value of nonzero length fails with a ValueError
    (Python's InvalidValueShape) and leaves the container unchanged; an empty
    non-list value is silently ignored without error; a length-free value
    fails earlier, at `len(value)`, with a TypeError.  In every non-list case
    the container is unchanged. -/
theorem setitem_non_list (m : Metadata) (key : String) (o : Bool) :
    (∀ s : String, s.length ≠ 0 → setitem m key (PyVal.strv s) o = .error .valueError)
  ∧ (∀ l : List MValue, l ≠ [] → setitem m key (PyVal.tup l) o = .error .valueError)
  ∧ (setitem m key (PyVal.strv "") o = .ok m)
  ∧ (setitem m key (PyVal.tup []) o = .ok m)
  ∧ (∀ n : Int, setitem m key (PyVal.intv n) o = .error .typeError)
  ∧ (∀ val : PyVal, (∀ l, val ≠ PyVal.list l) → setitemState m key val o = m) := by
  refine ⟨?_, ?_, ?_, ?_, ?_, ?_⟩
  · intro s hs
    simp [setitem, pyLen, hs]
  · intro l hl
    have : l.length ≠ 0 := by simpa using hl
    simp [setitem, pyLen, this]
  · simp [setitem, pyLen]
  · simp [setitem, pyLen]
  · intro n
    simp [setitem, pyLen]
  · intro val hval
    match val with
    | .list l => exact absurd rfl (hval l)
    | .strv s =>
      by_cases hs : s.length = 0 <;> simp [setitemState, setitem, pyLen, hs]
    | .tup l =>
      by_cases hl : l.length = 0 <;> simp [setitemState, setitem, pyLen, hl]
    | .intv n =>
      simp [setitemState, setitem, pyLen]

theorem setitem_non_list_witness :
    ("QM123" : String).length ≠ 0
  ∧ setitem emptyMeta "TSRC" (PyVal.strv "QM123") true = .error .valueError :=
  ⟨by decide, (setitem_non_list emptyMeta "TSRC" true).1 "QM123" (by decide)⟩

/-- C7 counterexample: the additive branch of `__setitem__` does not filter
    `None` entries — a single additive insert reaches a state whose stored
    list contains `None`, refuting the claim that `None` entries are filtered
    out on every insert in both branches. -/
theorem setitem_additive_keeps_none :
    lookupMeta (setitemState emptyMeta "TIT2" (PyVal.list [MValue.str "a", MValue.noneV]) false)
        "TIT2" = some [MValue.str "a", MValue.noneV]
  ∧ MValue.noneV ∈ [MValue.str "a", MValue.noneV] := by
  refine ⟨by decide, by decide⟩

/-- The non-emptiness part of the container invariant, stated entry-wise. -/
def MetaInv (m : Metadata) : Prop := ∀ p ∈ m, p.2 ≠ ([] : List MValue)

theorem setitemState_list (m : Metadata) (key : String) (l : List MValue) (o : Bool) :
    setitemState m key (PyVal.list l) o =
      if l.length = 0 then m
      else if o then
        (if 0 < (l.filter (fun elem => elem ≠ MValue.noneV)).length
          then storeMeta m key (l.filter (fun elem => elem ≠ MValue.noneV))
          else m)
      else
        (match lookupMeta m key with
          | none => storeMeta m key l
          | some old => storeMeta m key (old ++ l)) := by
  unfold setitemState setitem pyLen
  by_cases hl : l.length = 0 <;> cases o <;> simp [hl]
  · cases hlook : lookupMeta m key <;> simp [hlook]
  · by_cases hfil : 0 < (l.filter (fun elem => elem ≠ MValue.noneV)).length <;>
      simp only [ne_eq, decide_not] at hfil <;> simp [hfil]

theorem setitemState_non_list (m : Metadata) (key : String) (value : PyVal)
    (o : Bool) (hval : ∀ l, value ≠ PyVal.list l) : setitemState m key value o = m := by
  match value with
  | .list l => exact absurd rfl (hval l)
  | .strv s =>
    by_cases hs : s.length = 0 <;> simp [setitemState, setitem, pyLen, hs]
  | .tup l =>
    by_cases hl : l.length = 0 <;> simp [setitemState, setitem, pyLen, hl]
  | .intv n =>
    simp [setitemState, setitem, pyLen]

theorem metaInv_setitemState (m : Metadata) (key : String) (value : PyVal)
    (o : Bool) (h : MetaInv m) : MetaInv (setitemState m key value o) := by
  intro p hp
  match value with
  | .list l =>
    rw [setitemState_list] at hp
    split at hp
    next hlen => exact h p hp
    next hlen =>
      split at hp
      · split at hp
        next hfil =>
          rcases mem_storeMeta m key _ p hp with hm | hkv
          · exact h p hm
          · rw [hkv]
            exact List.length_pos.mp hfil
        next => exact h p hp
      · split at hp
        next hlook =>
          rcases mem_storeMeta m key _ p hp with hm | hkv
          · exact h p hm
          · rw [hkv]
            intro hnil
            exact hlen (by rw [show l = [] from hnil]; rfl)
        next old hlook =>
          rcases mem_storeMeta m key _ p hp with hm | hkv
          · exact h p hm
          · rw [hkv]
            intro hnil
            have h2 := List.append_eq_nil.mp (show old ++ l = [] from hnil)
            exact hlen (by rw [h2.2]; rfl)
  | .strv s =>
    rw [setitemState_non_list m key _ o (by intro l hc; cases hc)] at hp
    exact h p hp
  | .tup l =>
    rw [setitemState_non_list m key _ o (by intro l2 hc; cases hc)] at hp
    exact h p hp
  | .intv n =>
    rw [setitemState_non_list m key _ o (by intro l hc; cases hc)] at hp
    exact h p hp

theorem metaInv_add_metadata_dict (d : List (String × PyVal)) (m : Metadata)
    (o : Bool) (h : MetaInv m) : MetaInv (add_metadata_dict m d o) := by
  induction d generalizing m with
  | nil => exact h
  | cons kv rest ih =>
    exact ih _ (metaInv_setitemState m kv.1 kv.2 o h)

theorem metaInv_add_many (ds : List (List (String × PyVal))) (m : Metadata)
    (o : Bool) (h : MetaInv m) : MetaInv (add_many_metadata_dict m ds o) := by
  induction ds generalizing m with
  | nil => exact h
  | cons d rest ih =>
    exact ih _ (metaInv_add_metadata_dict d m o h)

theorem metaInv_applyOp (m : Metadata) (op : MetaOp) (h : MetaInv m) :
    MetaInv (applyOp m op) := by
  cases op with
  | set key value o => exact metaInv_setitemState m key value o h
  | addDict d o => exact metaInv_add_metadata_dict d m o h
  | addMany ds o => exact metaInv_add_many ds m o h
  | del key =>
    intro p hp
    exact h p (mem_removeMeta m key p hp)

/-- C7 (amended): after any sequence of `__setitem__` / `add_metadata_dict` /
    `add_many_metadata_dict` / `delete_item` calls, every stored key maps to
    a non-empty list.  `None` entries are filtered only in the override
    branch; the additive branch stores values unfiltered, so a stored list
    may contain `None` (see the counterexample). -/
theorem metaInv_foldl (ops : List MetaOp) (m : Metadata) (h : MetaInv m) :
    MetaInv (List.foldl applyOp m ops) := by
  induction ops generalizing m with
  | nil => exact h
  | cons op rest ih => exact ih _ (metaInv_applyOp m op h)

theorem metadata_stored_lists_nonempty (ops : List MetaOp) (k : String)
    (l : List MValue) (h : lookupMeta (runOps ops) k = some l) : l ≠ [] := by
  have hinv : MetaInv (runOps ops) :=
    metaInv_foldl ops emptyMeta (by intro p hp; simp [emptyMeta] at hp)
  exact hinv (k, l) (lookupMeta_mem _ _ _ h)

theorem metadata_stored_lists_nonempty_witness :
    lookupMeta (runOps [MetaOp.set "TPE1" (PyVal.list [MValue.str "Shakira"]) true]) "TPE1"
        = some [MValue.str "Shakira"]
  ∧ ([MValue.str "Shakira"] : List MValue) ≠ [] :=
  ⟨by decide,
    metadata_stored_lists_nonempty [MetaOp.set "TPE1" (PyVal.list [MValue.str "Shakira"]) true]
      "TPE1" [MValue.str "Shakira"] (by decide)⟩

/-! ### Lemmas about `get_id3_value` -/

theorem convertElem_idem (v : MValue) : convertElem (convertElem v) = convertElem v := by
  cases v <;> rfl

theorem map_convertElem_idem (l : List MValue) :
    (l.map convertElem).map convertElem = l.map convertElem := by
  induction l with
  | nil => rfl
  | cons v rest ih => simp [ih, convertElem_idem]

theorem map_convertElem_str (l : List String) :
    (l.map MValue.str).map convertElem = l.map MValue.str := by
  induction l with
  | nil => rfl
  | cons s rest ih => simp [ih, convertElem]

theorem allStrs_map_str (l : List String) :
    joinStrs.allStrs (l.map MValue.str) = some l := by
  induction l with
  | nil => rfl
  | cons s rest ih => simp [joinStrs.allStrs, ih]

theorem joinStrs_map_str (l : List String) :
    joinStrs (l.map MValue.str) = .ok (String.intercalate "\x00" l) := by
  unfold joinStrs
  rw [allStrs_map_str]

theorem storeMeta_storeMeta (m : Metadata) (k : String) (v w : List MValue) :
    storeMeta (storeMeta m k v) k w = storeMeta m k w := by
  induction m with
  | nil => simp [storeMeta]
  | cons p rest ih =>
    obtain ⟨a, b⟩ := p
    by_cases hak : a = k
    · subst hak
      simp [storeMeta]
    · simp [storeMeta, hak, ih]

theorem get_id3_value_of_lookup (m : Metadata) (key : String) (l : List MValue)
    (h : lookupMeta m key = some l) :
    get_id3_value m key
      = (storeMeta m key (l.map convertElem), get_id3_res key (l.map convertElem)) := by
  unfold get_id3_value
  rw [h]

/-- C4 counterexample: for the stored key "Txxx" — which starts with 'T' and
    is not the string 'TXXX' — `get_id3_value` returns the first stored value
    instead of the null-byte join, because the source compares
    case-insensitively (`key[0].upper()`, `key.upper() != "TXXX"`). -/
theorem get_id3_value_case_sensitivity :
    ("Txxx" : String) ≠ "TXXX"
  ∧ firstChar "Txxx" = 'T'
  ∧ (get_id3_value [("Txxx", [MValue.str "a", MValue.str "b"])] "Txxx").2
      = GetRes.valRes (MValue.str "a")
  ∧ GetRes.valRes (MValue.str "a") ≠ GetRes.strRes ("a" ++ "\x00" ++ "b") := by
  refine ⟨by decide, by decide, by decide, by decide⟩

/-- C4 (amended): for every container and every stored key whose first
    character upper-cases to 'T' and which does not upper-case to the string
    "TXXX", `get_id3_value` returns all stored values concatenated with the
    null byte in stored order; every other stored non-empty key returns only
    the first stored value (for lists of string values). -/
theorem get_id3_value_join_rule (m : Metadata) (key : String) (c : Char) (rest : List Char)
    (v : String) (vs : List String)
    (hkey : key.toList = c :: rest)
    (hstored : lookupMeta m key = some ((v :: vs).map MValue.str)) :
    ((c.toUpper = 'T' ∧ strUpper key ≠ "TXXX") →
      (get_id3_value m key).2 = GetRes.strRes (String.intercalate "\x00" (v :: vs)))
  ∧ (¬(c.toUpper = 'T' ∧ strUpper key ≠ "TXXX") →
      (get_id3_value m key).2 = GetRes.valRes (MValue.str v)) := by
  have hval : (get_id3_value m key).2 = get_id3_res key ((v :: vs).map MValue.str) := by
    rw [get_id3_value_of_lookup m key _ hstored, map_convertElem_str]
  constructor
  · intro hcond
    rw [hval]
    unfold get_id3_res
    rw [hkey]
    simp only [if_pos hcond, joinStrs_map_str]
  · intro hcond
    rw [hval]
    unfold get_id3_res
    rw [hkey]
    simp only [if_neg hcond, List.map_cons]

theorem get_id3_value_join_rule_witness :
    ("TPE1" : String).toList = 'T' :: ['P', 'E', '1']
  ∧ lookupMeta [("TPE1", [MValue.str "Rauw Alejandro", MValue.str "Shakira"])] "TPE1"
      = some (["Rauw Alejandro", "Shakira"].map MValue.str)
  ∧ (get_id3_value [("TPE1", [MValue.str "Rauw Alejandro", MValue.str "Shakira"])] "TPE1").2
      = GetRes.strRes (String.intercalate "\x00" ["Rauw Alejandro", "Shakira"])
  ∧ String.intercalate "\x00" ["Rauw Alejandro", "Shakira"]
      = "Rauw Alejandro" ++ "\x00" ++ "Shakira" :=
  ⟨by decide, by decide,
    (get_id3_value_join_rule [("TPE1", [MValue.str "Rauw Alejandro", MValue.str "Shakira"])]
        "TPE1" 'T' ['P', 'E', '1'] "Rauw Alejandro" ["Shakira"] (by decide) (by decide)).1
      (by decide),
    by decide⟩

/-- C10: `get_id3_value` on a stored key is a mutating read: the stored list
    is replaced element-wise by its converted form, every element that was an
    `ID3Timestamp` is afterwards the serialized timestamp string, and a
    second call on the same key returns the same state and the same value as
    the first. -/
theorem get_id3_value_mutates_in_place (m : Metadata) (key : String) (l : List MValue)
    (hstored : lookupMeta m key = some l) :
    lookupMeta (get_id3_value m key).1 key = some (l.map convertElem)
  ∧ (∀ (i : Nat) (hi : i < l.length) (t : ID3Timestamp),
      l.get ⟨i, hi⟩ = MValue.ts t →
      (l.map convertElem).get ⟨i, by simpa using hi⟩ = MValue.str t.get_timestamp)
  ∧ get_id3_value (get_id3_value m key).1 key = get_id3_value m key := by
  have h2 := get_id3_value_of_lookup m key l hstored
  refine ⟨?_, ?_, ?_⟩
  · rw [h2, lookupMeta_storeMeta]
    simp
  · intro i hi t hts
    rw [List.get_eq_getElem] at hts
    simp [List.get_eq_getElem, List.getElem_map, hts, convertElem]
  · rw [h2]
    have hlook2 : lookupMeta (storeMeta m key (l.map convertElem)) key
        = some (l.map convertElem) := by
      rw [lookupMeta_storeMeta]
      simp
    rw [get_id3_value_of_lookup _ key _ hlook2, map_convertElem_idem, storeMeta_storeMeta]

theorem get_id3_value_mutates_in_place_witness :
    lookupMeta [("TDRL", [MValue.ts ⟨some 2022, some 3, none, none, none, none⟩, MValue.str "x"])]
        "TDRL"
      = some [MValue.ts ⟨some 2022, some 3, none, none, none, none⟩, MValue.str "x"]
  ∧ lookupMeta
      (get_id3_value
        [("TDRL", [MValue.ts ⟨some 2022, some 3, none, none, none, none⟩, MValue.str "x"])]
        "TDRL").1 "TDRL"
      = some [MValue.str "2022-03", MValue.str "x"]
  ∧ get_id3_value
      (get_id3_value
        [("TDRL", [MValue.ts ⟨some 2022, some 3, none, none, none, none⟩, MValue.str "x"])]
        "TDRL").1 "TDRL"
      = get_id3_value
        [("TDRL", [MValue.ts ⟨some 2022, some 3, none, none, none, none⟩, MValue.str "x"])]
        "TDRL" := by
  have h := get_id3_value_mutates_in_place
    [("TDRL", [MValue.ts ⟨some 2022, some 3, none, none, none, none⟩, MValue.str "x"])]
    "TDRL" [MValue.ts ⟨some 2022, some 3, none, none, none, none⟩, MValue.str "x"] (by rfl)
  exact ⟨by rfl, h.1.trans (by rfl), h.2.2⟩

/-- C1: for every song and every non-None album, `song.album = album` records
    the album back-reference on the song and, when no existing tracklist
    entry matches the song by title, appends a shallow copy of the song with
    `dynamic = True` to the tracklist; the stored entry's title equals the
    song's title at link time, so it differs from any value the song's title
    is later reassigned to (copy semantics: the mutation does not
    propagate). -/
theorem set_album_copy_semantics (s : SongEnt) (a : AlbumEnt) :
    ((set_album s (some a)).1.album_ref = some a.id_)
  ∧ (tracklist_contains a s = false →
      ∃ a2 entry, (set_album s (some a)).2 = some a2
        ∧ a2.tracklist = a.tracklist ++ [entry]
        ∧ entry.dynamic = true
        ∧ entry.title = s.title
        ∧ (∀ newTitle : Option String, newTitle ≠ s.title → entry.title ≠ newTitle)) := by
  constructor
  · unfold set_album
    by_cases h : tracklist_contains a { s with album_ref := some a.id_ } <;> simp [h]
  · intro hnc
    have h2 : tracklist_contains a { s with album_ref := some a.id_ } = false := by
      simpa [tracklist_contains] using hnc
    refine ⟨{ a with tracklist := a.tracklist
        ++ [{ s with album_ref := some a.id_, dynamic := true }] },
      { s with album_ref := some a.id_, dynamic := true }, ?_, rfl, rfl, rfl, ?_⟩
    · simp [set_album, h2]
    · intro newTitle hne
      exact fun hc => hne (hc.symm)

theorem set_album_copy_semantics_witness :
    tracklist_contains ⟨1, []⟩ ⟨0, some "Te Felicito", false, none⟩ = false
  ∧ ((set_album ⟨0, some "Te Felicito", false, none⟩ (some ⟨1, []⟩)).1.album_ref = some 1)
  ∧ (∃ a2 entry,
      (set_album ⟨0, some "Te Felicito", false, none⟩ (some ⟨1, []⟩)).2 = some a2
        ∧ a2.tracklist = ([] : List SongEnt) ++ [entry]
        ∧ entry.dynamic = true
        ∧ entry.title = (⟨0, some "Te Felicito", false, none⟩ : SongEnt).title
        ∧ (∀ newTitle : Option String,
            newTitle ≠ (⟨0, some "Te Felicito", false, none⟩ : SongEnt).title
              → entry.title ≠ newTitle)) :=
  ⟨by decide,
    (set_album_copy_semantics ⟨0, some "Te Felicito", false, none⟩ ⟨1, []⟩).1,
    (set_album_copy_semantics ⟨0, some "Te Felicito", false, none⟩ ⟨1, []⟩).2 (by decide)⟩

/-! ### Merge lemmas for `Song.get_metadata` -/

theorem lookupMeta_setitemState_other (m : Metadata) (k2 : String) (pv : PyVal)
    (o : Bool) (k : String) (hne : k ≠ k2) :
    lookupMeta (setitemState m k2 pv o) k = lookupMeta m k := by
  match pv with
  | .list l =>
    rw [setitemState_list]
    split
    · rfl
    · split
      · split
        · rw [lookupMeta_storeMeta]
          simp [hne]
        · rfl
      · split
        · rw [lookupMeta_storeMeta]
          simp [hne]
        · rw [lookupMeta_storeMeta]
          simp [hne]
  | .strv s =>
    rw [setitemState_non_list m k2 _ o (by intro l hc; cases hc)]
  | .tup l =>
    rw [setitemState_non_list m k2 _ o (by intro l2 hc; cases hc)]
  | .intv n =>
    rw [setitemState_non_list m k2 _ o (by intro l hc; cases hc)]

theorem setitemState_additive_head (m : Metadata) (k k2 : String) (pv : PyVal)
    (v : MValue) (vs : List MValue) (h : lookupMeta m k = some (v :: vs)) :
    ∃ tl, lookupMeta (setitemState m k2 pv false) k = some (v :: tl) := by
  by_cases hk : k = k2
  · subst hk
    match pv with
    | .list l =>
      rw [setitemState_list]
      by_cases hl : l.length = 0
      · rw [if_pos hl]
        exact ⟨vs, h⟩
      · rw [if_neg hl]
        simp only [Bool.false_eq_true, if_false, h]
        rw [lookupMeta_storeMeta]
        exact ⟨vs ++ l, by simp⟩
    | .strv s =>
      rw [setitemState_non_list m k _ false (by intro l hc; cases hc)]
      exact ⟨vs, h⟩
    | .tup l =>
      rw [setitemState_non_list m k _ false (by intro l2 hc; cases hc)]
      exact ⟨vs, h⟩
    | .intv n =>
      rw [setitemState_non_list m k _ false (by intro l hc; cases hc)]
      exact ⟨vs, h⟩
  · rw [lookupMeta_setitemState_other m k2 pv false k hk]
    exact ⟨vs, h⟩

theorem mergeMeta_head (other : Metadata) (m : Metadata) (k : String)
    (v : MValue) (vs : List MValue) (h : lookupMeta m k = some (v :: vs)) :
    ∃ tl, lookupMeta (mergeMeta m other) k = some (v :: tl) := by
  induction other generalizing m vs with
  | nil => exact ⟨vs, h⟩
  | cons kv rest ih =>
    obtain ⟨tl1, h1⟩ := setitemState_additive_head m k kv.1 (PyVal.list kv.2) v vs h
    obtain ⟨tl2, h2⟩ := ih (setitemState m kv.1 (PyVal.list kv.2) false) tl1 h1
    exact ⟨tl2, by simpa [mergeMeta] using h2⟩

theorem merge_many_head (others : List Metadata) (m : Metadata) (k : String)
    (v : MValue) (vs : List MValue) (h : lookupMeta m k = some (v :: vs)) :
    ∃ tl, lookupMeta (merge_many m others) k = some (v :: tl) := by
  induction others generalizing m vs with
  | nil => exact ⟨vs, h⟩
  | cons other rest ih =>
    obtain ⟨tl1, h1⟩ := mergeMeta_head other m k v vs h
    obtain ⟨tl2, h2⟩ := ih (mergeMeta m other) tl1 h1
    exact ⟨tl2, by simpa [merge_many] using h2⟩

theorem setitemState_override_single (m : Metadata) (k : String) (x : MValue)
    (hx : x ≠ MValue.noneV) : setitemState m k (PyVal.list [x]) true = storeMeta m k [x] := by
  rw [setitemState_list]
  simp [hx]

theorem song_seed_title (s : SongMeta) (t : String) (ht : s.title = some t) :
    lookupMeta (song_seed s) "TIT2" = some [MValue.str t] := by
  unfold song_seed add_metadata_dict
  simp only [List.foldl_cons, List.foldl_nil]
  rw [lookupMeta_setitemState_other _ _ _ _ _ (by decide),
    lookupMeta_setitemState_other _ _ _ _ _ (by decide),
    lookupMeta_setitemState_other _ _ _ _ _ (by decide),
    lookupMeta_setitemState_other _ _ _ _ _ (by decide)]
  rw [ht]
  rw [setitemState_override_single _ _ _ (by simp [optStr])]
  rw [lookupMeta_storeMeta]
  simp [optStr]

/-- C3: `Song.get_metadata` first seeds a fresh container from the song's own
    TITLE, ISRC, LENGTH, GENRE and TRACKNUMBER fields with override
    semantics (a present title is stored under TIT2), then merges the
    per-source, album (when linked), main-artist, featured-artist and lyrics
    containers additively, in that order — so any key stored by the seed
    keeps its entity-local value as the first stored value of the final
    container, no matter what the collaborator containers contribute. -/
theorem song_get_metadata_seed_first (s : SongMeta) :
    (∀ t : String, s.title = some t →
      lookupMeta (song_seed s) "TIT2" = some [MValue.str t])
  ∧ (∀ (k : String) (v : MValue) (vs : List MValue),
      lookupMeta (song_seed s) k = some (v :: vs) →
      ∃ tl, lookupMeta (song_get_metadata s) k = some (v :: tl)) := by
  constructor
  · intro t ht
    exact song_seed_title s t ht
  · intro k v vs h
    unfold song_get_metadata
    obtain ⟨t1, h1⟩ := merge_many_head s.sourceMeta (song_seed s) k v vs h
    cases halb : s.albumMeta with
    | none =>
      simp only [halb]
      obtain ⟨t2, h2⟩ := merge_many_head s.mainArtistMeta _ k v t1 h1
      obtain ⟨t3, h3⟩ := merge_many_head s.featureArtistMeta _ k v t2 h2
      exact merge_many_head s.lyricsMeta _ k v t3 h3
    | some am =>
      simp only [halb]
      obtain ⟨t2, h2⟩ := mergeMeta_head am _ k v t1 h1
      obtain ⟨t3, h3⟩ := merge_many_head s.mainArtistMeta _ k v t2 h2
      obtain ⟨t4, h4⟩ := merge_many_head s.featureArtistMeta _ k v t3 h3
      exact merge_many_head s.lyricsMeta _ k v t4 h4

theorem song_get_metadata_seed_first_witness :
    lookupMeta
        (song_seed
          ⟨some "Te Felicito", some "QM123", none, none, none,
            [[("TPE1", [MValue.str "Rauw Alejandro"])], [("TPE1", [MValue.str "Shakira"])]],
            none, [], [], []⟩)
        "TIT2" = some [MValue.str "Te Felicito"]
  ∧ ∃ tl, lookupMeta
        (song_get_metadata
          ⟨some "Te Felicito", some "QM123", none, none, none,
            [[("TPE1", [MValue.str "Rauw Alejandro"])], [("TPE1", [MValue.str "Shakira"])]],
            none, [], [], []⟩)
        "TIT2" = some (MValue.str "Te Felicito" :: tl) :=
  ⟨(song_get_metadata_seed_first _).1 "Te Felicito" rfl,
    (song_get_metadata_seed_first _).2 "TIT2" (MValue.str "Te Felicito") []
      ((song_get_metadata_seed_first _).1 "Te Felicito" rfl)⟩

/-! ### DefaultTarget lemmas -/

theorem dt_run_preserves_off_default (fit : String → String) (dv : TField → String)
    (f : TField) (ws : List (TField × String)) (st : TField → String)
    (h : st f ≠ dv f) : dt_run fit dv st ws f = st f := by
  induction ws generalizing st with
  | nil => rfl
  | cons w rest ih =>
    have hstep : dt_setattr fit dv st w.1 w.2 f = st f := by
      unfold dt_setattr
      split
      next hcur =>
        by_cases hwf : w.1 = f
        · rw [hwf] at hcur
          exact absurd hcur h
        · show (if f = w.1 then fit w.2 else st f) = st f
          rw [if_neg (fun hc : f = w.1 => hwf hc.symm)]
      next => rfl
    have := ih (dt_setattr fit dv st w.1 w.2) (by rw [hstep]; exact h)
    simpa [dt_run, hstep] using this

theorem dt_run_untouched (fit : String → String) (dv : TField → String)
    (g : TField) (ws : List (TField × String)) (st : TField → String)
    (hws : ∀ w ∈ ws, w.1 ≠ g) : dt_run fit dv st ws g = st g := by
  induction ws generalizing st with
  | nil => rfl
  | cons w rest ih =>
    have hstep : dt_setattr fit dv st w.1 w.2 g = st g := by
      unfold dt_setattr
      split
      · show (if g = w.1 then fit w.2 else st g) = st g
        rw [if_neg (fun hc : g = w.1 => (hws w (by simp)) hc.symm)]
      · rfl
    have := ih (dt_setattr fit dv st w.1 w.2) (fun w2 hw2 => hws w2 (by simp [hw2]))
    simpa [dt_run, hstep] using this

/-- C8: in `DefaultTarget`, a named field still holding its default accepts a
    write, storing the sanitized (`fit_to_file_system`) form of the assigned
    value; once that sanitized value differs from the field's default, no
    later assignment of the resolution walk changes the field (first
    successful write wins); and a field that no write of the walk targets
    retains its default placeholder value (the sanitizer fixes defaults). -/
theorem default_target_first_write_wins (fit : String → String) (dv : TField → String)
    (st : TField → String) (f : TField) (v : String) (ws : List (TField × String))
    (hdef : st f = dv f) (hmoved : fit v ≠ dv f) :
    (dt_setattr fit dv st f v f = fit v)
  ∧ (dt_run fit dv (dt_setattr fit dv st f v) ws f = fit v)
  ∧ (∀ (g : TField) (ws2 : List (TField × String)), fit (dv g) = dv g →
      (∀ w ∈ ws2, w.1 ≠ g) → dt_run fit dv (dt_init fit dv) ws2 g = dv g) := by
  have hset : dt_setattr fit dv st f v f = fit v := by
    unfold dt_setattr
    rw [if_pos hdef]
    simp
  refine ⟨hset, ?_, ?_⟩
  · rw [dt_run_preserves_off_default fit dv f ws _ (by rw [hset]; exact hmoved)]
    exact hset
  · intro g ws2 hfix hws2
    rw [dt_run_untouched fit dv g ws2 _ hws2]
    exact hfix

theorem default_target_first_write_wins_witness :
    ((fun _ : TField => "unknown") TField.artist = "unknown")
  ∧ ((fun x : String => x) "Rauw Alejandro" ≠ "unknown")
  ∧ (dt_setattr (fun x => x) (fun _ => "unknown") (fun _ => "unknown")
        TField.artist "Rauw Alejandro" TField.artist = "Rauw Alejandro")
  ∧ (dt_run (fun x => x) (fun _ => "unknown")
        (dt_setattr (fun x => x) (fun _ => "unknown") (fun _ => "unknown")
          TField.artist "Rauw Alejandro")
        [(TField.artist, "Shakira"), (TField.label, "Sony")] TField.artist
      = "Rauw Alejandro")
  ∧ (dt_run (fun x => x) (fun _ => "unknown")
        (dt_init (fun x => x) (fun _ => "unknown"))
        [(TField.album, "Vice Versa")] TField.genre = "unknown") := by
  have h := default_target_first_write_wins (fun x => x) (fun _ => "unknown")
    (fun _ => "unknown") TField.artist "Rauw Alejandro"
    [(TField.artist, "Shakira"), (TField.label, "Sony")] rfl (by decide)
  exact ⟨rfl, by decide, h.1, h.2.1, h.2.2 TField.genre [(TField.album, "Vice Versa")]
    rfl (by decide)⟩

end MusicKraken
